import Mathlib

/-!
Shallow embedding of the lap-steel-dyads core (src/lib/music.ts,
src/lib/fretboard.ts, src/lib/dyads.ts, src/lib/substitutions.ts).

The repository carries three revisions of the dyad module across its
source files: revision 1 is lever-aware and its guide-tone filter selects
by the dyad's own interval; revision 2 searches without levers and its
guide-tone filter scores the two notes' intervals from a chord root (the
spec's Policy B); revision 3 — staged as the second document of the
audio.ts source file — searches without levers and its guide-tone filter
keeps exactly the third/seventh role pairs relative to a chord root (the
spec's Policy A).  All three are embedded below; shared music-theory
helpers are embedded once since the revisions' copies are textually
identical.

JavaScript object-literal lookups (`CHORD_INTERVALS[q]`,
`FLAT_TO_SHARP[s]`) traverse the prototype chain: keys inherited from
`Object.prototype` yield truthy non-table values, which the embedding
models explicitly (`objectProtoProperties`, `NormalizedNote`,
`MusicError.typeError`), and the chord-symbol regex fails on line
terminators (`isLineTerminator`).

JavaScript `%` on integers is truncating remainder, embedded as `Int.tmod`.
JavaScript `Array.prototype.sort` (required stable since ES2019) with an
integer comparator `c` is embedded as `List.insertionSort` under the total
preorder `c a b ≤ 0`: a stable sort's output is uniquely determined by the
order and the input, so any stable sorting algorithm is an exact model.
-/

set_option maxRecDepth 100000
set_option maxHeartbeats 1000000

namespace LapSteel

/-- The 12 canonical (sharp-spelled) note names, in chromatic order
matching the `NOTES` array of music.ts. -/
inductive NoteName
  | C | Cs | D | Ds | E | F | Fs | G | Gs | A | As | B
deriving DecidableEq, Fintype, Repr

open NoteName

/-- The `NOTES` array: chromatic order, sharps as canonical. -/
def NOTES : List NoteName := [C, Cs, D, Ds, E, F, Fs, G, Gs, A, As, B]

/-- Canonical spelling of each note name (the strings of `NOTES`). -/
def noteNameStr : NoteName → String
  | C => "C" | Cs => "C#" | D => "D" | Ds => "D#" | E => "E" | F => "F"
  | Fs => "F#" | G => "G" | Gs => "G#" | A => "A" | As => "A#" | B => "B"

/-- `noteToSemitone`: index of the (already canonical) note in `NOTES`. -/
def noteToSemitone : NoteName → Nat
  | C => 0 | Cs => 1 | D => 2 | Ds => 3 | E => 4 | F => 5
  | Fs => 6 | G => 7 | Gs => 8 | A => 9 | As => 10 | B => 11

/-- `semitoneToNote`: `NOTES[((semitone % 12) + 12) % 12]`, with JS `%`
(truncating remainder) embedded as `Int.tmod`. -/
def semitoneToNote (semitone : Int) : NoteName :=
  NOTES.getD ((semitone.tmod 12 + 12).tmod 12).toNat C

/-- `transposeNote`: shift a note by a (possibly negative) semitone count. -/
def transposeNote (note : NoteName) (semitones : Int) : NoteName :=
  semitoneToNote ((noteToSemitone note : Int) + semitones)

/-- `getInterval`: `((s2 - s1) % 12 + 12) % 12`, directional, JS `%`. -/
def getInterval (note1 note2 : NoteName) : Int :=
  (((noteToSemitone note2 : Int) - (noteToSemitone note1 : Int)).tmod 12 + 12).tmod 12

/-- The `INTERVAL_NAMES` record (keys 0-11). -/
def INTERVAL_NAMES (n : Int) : Option String :=
  match n with
  | 0 => some "unison"
  | 1 => some "m2"
  | 2 => some "M2"
  | 3 => some "m3"
  | 4 => some "M3"
  | 5 => some "P4"
  | 6 => some "TT"
  | 7 => some "P5"
  | 8 => some "m6"
  | 9 => some "M6"
  | 10 => some "m7"
  | 11 => some "M7"
  | _ => none

/-- `getIntervalName`: reduce mod 12 then look up, with `${n}st` fallback. -/
def getIntervalName (semitones : Int) : String :=
  (INTERVAL_NAMES ((semitones.tmod 12 + 12).tmod 12)).getD
    (toString ((semitones.tmod 12 + 12).tmod 12) ++ "st")

/-- Error taxonomy of the music/fretboard parsing layer.  The first three
model errors thrown deliberately by the source; `typeError` models an
uncaught JavaScript `TypeError` raised when a prototype-inherited lookup
result is used as if it were a table entry (see `objectProtoProperties`). -/
inductive MusicError
  | invalidNote (s : String)
  | invalidChord (s : String)
  | unknownQuality (q : String)
  | typeError (msg : String)
deriving DecidableEq, Repr

/-- Property names inherited from `Object.prototype`: on a plain JavaScript
object literal such as `CHORD_INTERVALS` or `FLAT_TO_SHARP`, the lookup
`obj[key]` for these keys yields an inherited function (or, for
`__proto__`, the prototype object) — a truthy value — even though the key
is absent from the literal itself. -/
def objectProtoProperties : List String :=
  ["constructor", "hasOwnProperty", "isPrototypeOf", "propertyIsEnumerable",
   "toLocaleString", "toString", "valueOf", "__proto__",
   "__defineGetter__", "__defineSetter__", "__lookupGetter__",
   "__lookupSetter__"]

/-- JavaScript line terminators: `.` does not match them (no `s` flag) and
`$` only matches at end of input (no `m` flag), so the chord-symbol regex
fails on any input containing one after the root letter. -/
def isLineTerminator (c : Char) : Bool :=
  c = '\n' ∨ c = '\r' ∨ c = '\u2028' ∨ c = '\u2029'

/-- The value `normalizeNote` actually returns in JavaScript: a genuine
note name, or — for an input whose case-folded form is an inherited
`Object.prototype` property name (the underscore-prefixed ones survive
`upcaseFirst` unchanged) — the truthy inherited object itself, passed
along as if it were a note. -/
inductive NormalizedNote
  | note (n : NoteName)
  | protoObject (key : String)
deriving DecidableEq, Repr

/-- The `FLAT_TO_SHARP` record: flat spellings accepted as input aliases. -/
def FLAT_TO_SHARP (s : String) : Option NoteName :=
  match s with
  | "Db" => some Cs
  | "Eb" => some Ds
  | "Fb" => some E
  | "Gb" => some Fs
  | "Ab" => some Gs
  | "Bb" => some As
  | "Cb" => some B
  | _ => none

/-- Membership test in the canonical `NOTES` spellings (`NOTES.includes`). -/
def sharpNameOf (s : String) : Option NoteName :=
  match s with
  | "C" => some C
  | "C#" => some Cs
  | "D" => some D
  | "D#" => some Ds
  | "E" => some E
  | "F" => some F
  | "F#" => some Fs
  | "G" => some G
  | "G#" => some Gs
  | "A" => some A
  | "A#" => some As
  | "B" => some B
  | _ => none

/-- `note.charAt(0).toUpperCase() + note.slice(1)`. -/
def upcaseFirst (s : String) : String :=
  match s.data with
  | [] => ""
  | c :: rest => String.mk (c.toUpper :: rest)

/-- `normalizeNote`: case-fold the letter, accept flat aliases, else
require a canonical sharp spelling.  The truthiness test
`if (FLAT_TO_SHARP[upper])` also succeeds for `Object.prototype` keys
(only the underscore-prefixed ones survive `upcaseFirst`), in which case
the inherited object is returned as if it were a note. -/
def normalizeNote (note : String) : Except MusicError NormalizedNote :=
  match FLAT_TO_SHARP (upcaseFirst note) with
  | some n => Except.ok (NormalizedNote.note n)
  | none =>
    if (upcaseFirst note) ∈ objectProtoProperties then
      Except.ok (NormalizedNote.protoObject (upcaseFirst note))
    else
      match sharpNameOf (upcaseFirst note) with
      | some n => Except.ok (NormalizedNote.note n)
      | none => Except.error (MusicError.invalidNote note)

/-- The `CHORD_INTERVALS` table: quality suffix to semitone offsets. -/
def CHORD_INTERVALS (q : String) : Option (List Nat) :=
  match q with
  | "" => some [0, 4, 7]
  | "maj" => some [0, 4, 7]
  | "M" => some [0, 4, 7]
  | "m" => some [0, 3, 7]
  | "min" => some [0, 3, 7]
  | "-" => some [0, 3, 7]
  | "dim" => some [0, 3, 6]
  | "o" => some [0, 3, 6]
  | "aug" => some [0, 4, 8]
  | "+" => some [0, 4, 8]
  | "7" => some [0, 4, 7, 10]
  | "maj7" => some [0, 4, 7, 11]
  | "M7" => some [0, 4, 7, 11]
  | "m7" => some [0, 3, 7, 10]
  | "min7" => some [0, 3, 7, 10]
  | "-7" => some [0, 3, 7, 10]
  | "dim7" => some [0, 3, 6, 9]
  | "o7" => some [0, 3, 6, 9]
  | "m7b5" => some [0, 3, 6, 10]
  | "ø" => some [0, 3, 6, 10]
  | "ø7" => some [0, 3, 6, 10]
  | "aug7" => some [0, 4, 8, 10]
  | "+7" => some [0, 4, 8, 10]
  | "6" => some [0, 4, 7, 9]
  | "m6" => some [0, 3, 7, 9]
  | "sus2" => some [0, 2, 7]
  | "sus4" => some [0, 5, 7]
  | "9" => some [0, 4, 7, 10, 14]
  | "maj9" => some [0, 4, 7, 11, 14]
  | "m9" => some [0, 3, 7, 10, 14]
  | _ => none

/-- The character class `[A-Ga-g]` of the chord-symbol pattern. -/
def chordLetters : List Char :=
  ['A', 'B', 'C', 'D', 'E', 'F', 'G', 'a', 'b', 'c', 'd', 'e', 'f', 'g']

/-- The split performed by the pattern `^([A-Ga-g][#b]?)(.*)$`: the root
spelling (letter plus optional accidental) and the remaining quality text.
Because `.` does not match line terminators and `$` (no `m` flag) anchors
only at end of input, the pattern fails — even after backtracking the
optional accidental — whenever any character after the root letter is a
line terminator. -/
def splitChordSymbol (chord : String) : Option (String × String) :=
  match chord.data with
  | [] => none
  | c :: rest =>
    if chordLetters.contains c ∧ rest.all (fun ch => ¬ isLineTerminator ch) then
      match rest with
      | [] => some (String.mk [c], "")
      | a :: rest2 =>
        if a = '#' ∨ a = 'b' then some (String.mk [c, a], String.mk rest2)
        else some (String.mk [c], String.mk rest)
    else none

/-- `parseChord`: split the symbol, normalize the root, and reject a
non-empty quality suffix whose lookup `CHORD_INTERVALS[quality]` is falsy —
i.e. one that is neither an own key of the table nor an inherited
`Object.prototype` property name (those lookups are truthy, so the
unknown-quality throw is skipped for them). -/
def parseChord (chord : String) : Except MusicError (NormalizedNote × String) :=
  match splitChordSymbol chord with
  | none => Except.error (MusicError.invalidChord chord)
  | some (rootStr, quality) =>
    match normalizeNote rootStr with
    | Except.error e => Except.error e
    | Except.ok root =>
      if quality ≠ "" ∧ CHORD_INTERVALS quality = none ∧
          ¬ quality ∈ objectProtoProperties then
        Except.error (MusicError.unknownQuality quality)
      else
        Except.ok (root, quality)

/-- `getChordTones`: expand a chord symbol to its tones.  A prototype-junk
root makes `noteToSemitone(root)` raise a `TypeError` (`note.charAt` is not
a function); a quality that is an inherited `Object.prototype` name makes
the truthy `||` left operand win, after which `intervals.map` raises a
`TypeError`; an absent quality falls back to the major triad
(`CHORD_INTERVALS['']`), though `parseChord` has already rejected that
case. -/
def getChordTones (chord : String) : Except MusicError (List NoteName) :=
  match parseChord chord with
  | Except.error e => Except.error e
  | Except.ok (NormalizedNote.protoObject _k, _quality) =>
    Except.error (MusicError.typeError "note.charAt is not a function")
  | Except.ok (NormalizedNote.note root, quality) =>
    match CHORD_INTERVALS quality with
    | some intervals =>
      Except.ok (intervals.map
        (fun interval => semitoneToNote ((noteToSemitone root : Int) + interval)))
    | none =>
      if quality ∈ objectProtoProperties then
        Except.error (MusicError.typeError "intervals.map is not a function")
      else
        Except.ok (([0, 4, 7] : List Nat).map
          (fun interval => semitoneToNote ((noteToSemitone root : Int) + interval)))

/-! ## Fretboard position resolver (fretboard.ts) -/

/-- Lap steel tuning G B D F# A D (low to high, strings 0-5). -/
def LAP_STEEL_TUNING : List NoteName := [G, B, D, Fs, A, D]

/-- Number of frets to display/search. -/
def FRET_COUNT : Nat := 24

/-- A physical position: string index, fret number, the note found there,
and whether the position uses a lever bend (absent/undefined is `false`). -/
structure FretPosition where
  string : Nat
  fret : Nat
  note : NoteName
  isLeverBent : Bool := false
deriving DecidableEq, Repr

/-- Lever configuration: which string it binds, how far it bends up, and
the open/bent notes. -/
structure LeverConfig where
  stringIndex : Nat
  semitones : Nat
  openNote : NoteName
  bentNote : NoteName
deriving DecidableEq, Repr

/-- Default levers: F# string 3 bent up 1 to G, A string 4 bent up 2 to B. -/
def LEVER_CONFIG : List LeverConfig :=
  [⟨3, 1, Fs, G⟩, ⟨4, 2, A, B⟩]

/-- `findNotePositions`: for each string, for each fret 0..maxFret, emit a
position when `(open + fret) % 12` hits the target semitone.  The nested
loops are embedded as `flatMap`/`filterMap` over `List.range`; `tuning[string]`
is `List.getD` (the index is always in range). -/
def findNotePositions (note : NoteName) (tuning : List NoteName)
    (maxFret : Nat) : List FretPosition :=
  (List.range tuning.length).flatMap (fun string =>
    (List.range (maxFret + 1)).filterMap (fun fret =>
      if (noteToSemitone (tuning.getD string C) + fret) % 12 = noteToSemitone note
      then some { string := string, fret := fret, note := note }
      else none))

/-- `findChordPositions`: concatenate the positions of every chord tone. -/
def findChordPositions (notes : List NoteName) (tuning : List NoteName)
    (maxFret : Nat) : List FretPosition :=
  notes.flatMap (fun note => findNotePositions note tuning maxFret)

/-- The strings whose lever is engaged for this query: the lever's bent note
is (by semitone) among the chord tones. -/
def leverEngagedStrings (chordTones : List NoteName) (levers : List LeverConfig) :
    List Nat :=
  (levers.filter (fun lever =>
    chordTones.any (fun ct => noteToSemitone ct = noteToSemitone lever.bentNote))).map
    (fun lever => lever.stringIndex)

/-- The extra fret-0 lever positions pushed by the lever loop of
`findNotePositionsWithLevers`: one per engaged lever whose bent note is the
target note. -/
def leverBentPositions (note : NoteName) (chordTones : List NoteName)
    (levers : List LeverConfig) : List FretPosition :=
  levers.filterMap (fun lever =>
    if chordTones.any (fun ct => noteToSemitone ct = noteToSemitone lever.bentNote)
        ∧ noteToSemitone note = noteToSemitone lever.bentNote
    then some { string := lever.stringIndex, fret := 0, note := note, isLeverBent := true }
    else none)

/-- The base scan of `findNotePositionsWithLevers`: like `findNotePositions`
but skipping fret 0 on lever-engaged strings, and stamping
`isLeverBent := false`. -/
def standardPositionsWithLevers (note : NoteName) (chordTones : List NoteName)
    (levers : List LeverConfig) (tuning : List NoteName) (maxFret : Nat) :
    List FretPosition :=
  (List.range tuning.length).flatMap (fun string =>
    (List.range (maxFret + 1)).filterMap (fun fret =>
      if fret = 0 ∧ string ∈ leverEngagedStrings chordTones levers then none
      else if (noteToSemitone (tuning.getD string C) + fret) % 12 = noteToSemitone note
      then some { string := string, fret := fret, note := note, isLeverBent := false }
      else none))

/-- `findNotePositionsWithLevers`: the lever loop pushes its fret-0 engaged
positions first, then the base scan appends the standard positions. -/
def findNotePositionsWithLevers (note : NoteName) (chordTones : List NoteName)
    (levers : List LeverConfig) (tuning : List NoteName) (maxFret : Nat) :
    List FretPosition :=
  leverBentPositions note chordTones levers
    ++ standardPositionsWithLevers note chordTones levers tuning maxFret

/-- `findChordPositionsWithLevers`: lever-aware positions of every tone,
passing the whole tone list as the engagement context. -/
def findChordPositionsWithLevers (notes : List NoteName) (levers : List LeverConfig)
    (tuning : List NoteName) (maxFret : Nat) : List FretPosition :=
  notes.flatMap (fun note =>
    findNotePositionsWithLevers note notes levers tuning maxFret)

/-! ## Dyad geometry search (dyads.ts) -/

/-- Straight bar (same fret) or slanted bar (frets one apart). -/
inductive DyadType
  | straight
  | slant
deriving DecidableEq, Repr

/-- Provenance of a dyad (revision 1). -/
inductive DyadSource
  | direct
  | lever
  | diatonicSub
  | tritoneSub
deriving DecidableEq, Repr

/-- The unordered pairs of a list, in the order of the nested
`for i; for j > i` loops of `findDyads`. -/
def allPairs {α : Type} : List α → List (α × α)
  | [] => []
  | x :: xs => xs.map (fun y => (x, y)) ++ allPairs xs

namespace DyadsRev1

/-- Revision-1 dyad: canonical pair of positions plus interval, label,
type, priority, provenance, and lever metadata (`[]` models `undefined`). -/
structure Dyad where
  pos1 : FretPosition
  pos2 : FretPosition
  interval : Int
  intervalName : String
  type : DyadType
  priority : Nat
  source : DyadSource
  leverPositions : List Nat := []
deriving DecidableEq, Repr

/-- The `INTERVAL_PRIORITY` table of revision 1 (`?? 0` fallback). -/
def getDyadPriority (interval : Int) : Nat :=
  match interval with
  | 3 => 10
  | 4 => 10
  | 10 => 9
  | 11 => 9
  | 6 => 8
  | 7 => 5
  | 8 => 4
  | 9 => 4
  | 5 => 3
  | 2 => 2
  | 1 => 1
  | 0 => 0
  | _ => 0

/-- The dedup key of revision 1: coordinates plus both lever flags
(the `-`-joined string key is injective on these components). -/
abbrev DyadKey := Nat × Nat × Nat × Nat × Bool × Bool

/-- Lower fret of a dyad (`Math.min(pos1.fret, pos2.fret)`). -/
def minFret (d : Dyad) : Nat := min d.pos1.fret d.pos2.fret

/-- One iteration of the pair loop of revision-1 `findDyads`: skip same
string, skip slants wider than `maxSlant`, canonicalize by string order,
dedup by key, then push the classified dyad. -/
def dyadStep (maxSlant : Nat) (st : List Dyad × List DyadKey)
    (pr : FretPosition × FretPosition) : List Dyad × List DyadKey :=
  if pr.1.string = pr.2.string then st
  else if maxSlant < ((pr.1.fret : Int) - (pr.2.fret : Int)).natAbs then st
  else
    let lower := if pr.1.string < pr.2.string then pr.1 else pr.2
    let higher := if pr.1.string < pr.2.string then pr.2 else pr.1
    let key : DyadKey :=
      (lower.string, lower.fret, higher.string, higher.fret,
       lower.isLeverBent, higher.isLeverBent)
    if key ∈ st.2 then st
    else
      let interval := getInterval lower.note higher.note
      let leverPositions :=
        (if lower.isLeverBent then [1] else []) ++ (if higher.isLeverBent then [2] else [])
      (st.1 ++ [{ pos1 := lower, pos2 := higher, interval := interval,
                  intervalName := getIntervalName interval,
                  type := if ((pr.1.fret : Int) - (pr.2.fret : Int)).natAbs = 0
                          then DyadType.straight else DyadType.slant,
                  priority := getDyadPriority interval,
                  source := if leverPositions ≠ [] then DyadSource.lever
                            else DyadSource.direct,
                  leverPositions := leverPositions }],
       st.2 ++ [key])

/-- The final sort comparator of `findDyads`: ascending `min(fret1,fret2)`,
tie broken by ascending lower-string index. -/
def dyadCompare (a b : Dyad) : Int :=
  if minFret a ≠ minFret b then (minFret a : Int) - (minFret b : Int)
  else (a.pos1.string : Int) - (b.pos1.string : Int)

/-- The comparator order `dyadCompare a b ≤ 0` of the final sort. -/
def dyadLE (a b : Dyad) : Prop := dyadCompare a b ≤ 0

instance : DecidableRel dyadLE := fun a b => Int.decLe (dyadCompare a b) 0

/-- Revision-1 `findDyads`: lever-aware positions (when enabled), all
pairs, filter/dedup/classify, then the stable final sort. -/
def findDyads (chordTones : List NoteName) (maxSlant : Nat)
    (tuning : List NoteName) (maxFret : Nat) (useLevers : Bool) : List Dyad :=
  let positions :=
    if useLevers then findChordPositionsWithLevers chordTones LEVER_CONFIG tuning maxFret
    else findChordPositions chordTones tuning maxFret
  List.insertionSort dyadLE
    (((allPairs positions).foldl (dyadStep maxSlant) ([], [])).1)

/-- Revision-1 `dyadsOverlap`: shared (string,fret) coordinate, or close
min-frets together with a shared string. -/
def dyadsOverlap (a b : Dyad) (fretProximity : Nat) : Bool :=
  let aPositions := [(a.pos1.string, a.pos1.fret), (a.pos2.string, a.pos2.fret)]
  let bPositions := [(b.pos1.string, b.pos1.fret), (b.pos2.string, b.pos2.fret)]
  if aPositions.any (fun p => bPositions.contains p) then true
  else
    let fretsClose := decide (((minFret a : Int) - (minFret b : Int)).natAbs ≤ fretProximity)
    let stringsOverlap :=
      [a.pos1.string, a.pos2.string].any
        (fun s => [b.pos1.string, b.pos2.string].contains s)
    fretsClose && stringsOverlap

/-- The guide-tone sort comparator of revision 1: descending priority, tie
broken by ascending min fret. -/
def priorityCompare (a b : Dyad) : Int :=
  if a.priority ≠ b.priority then (b.priority : Int) - (a.priority : Int)
  else (minFret a : Int) - (minFret b : Int)

/-- The comparator order `priorityCompare a b ≤ 0`. -/
def priorityLE (a b : Dyad) : Prop := priorityCompare a b ≤ 0

instance : DecidableRel priorityLE := fun a b => Int.decLe (priorityCompare a b) 0

/-- The display-order comparator of the final sort of `filterGuideTones`
(min fret ascending, no tie-break). -/
def minFretLE (a b : Dyad) : Prop := (minFret a : Int) - (minFret b : Int) ≤ 0

instance : DecidableRel minFretLE := fun a b => Int.decLe ((minFret a : Int) - (minFret b : Int)) 0

/-- Revision-1 `filterGuideTones` (Policy A): keep dyads whose own stamped
interval is a 3rd, tritone, or 7th, then greedily select non-overlapping
dyads in priority order and re-sort by min fret. -/
def filterGuideTones (dyads : List Dyad) (fretProximity : Nat) : List Dyad :=
  let guideToneDyads := dyads.filter
    (fun d => ([3, 4, 6, 10, 11] : List Int).contains d.interval)
  let sorted := List.insertionSort priorityLE guideToneDyads
  let selected := sorted.foldl
    (fun sel d => if sel.any (fun s => dyadsOverlap d s fretProximity)
                  then sel else sel ++ [d]) []
  List.insertionSort minFretLE selected

end DyadsRev1

namespace DyadsRev2

/-- Revision-2 dyad: no lever or priority metadata. -/
structure Dyad where
  pos1 : FretPosition
  pos2 : FretPosition
  interval : Int
  intervalName : String
  type : DyadType
deriving DecidableEq, Repr

/-- The dedup key of revision 2: the two canonical coordinates only. -/
abbrev DyadKey := Nat × Nat × Nat × Nat

/-- Lower fret of a dyad. -/
def minFret (d : Dyad) : Nat := min d.pos1.fret d.pos2.fret

/-- One iteration of the pair loop of revision-2 `findDyads`. -/
def dyadStep (maxSlant : Nat) (st : List Dyad × List DyadKey)
    (pr : FretPosition × FretPosition) : List Dyad × List DyadKey :=
  if pr.1.string = pr.2.string then st
  else if maxSlant < ((pr.1.fret : Int) - (pr.2.fret : Int)).natAbs then st
  else
    let lower := if pr.1.string < pr.2.string then pr.1 else pr.2
    let higher := if pr.1.string < pr.2.string then pr.2 else pr.1
    let key : DyadKey := (lower.string, lower.fret, higher.string, higher.fret)
    if key ∈ st.2 then st
    else
      let interval := getInterval lower.note higher.note
      (st.1 ++ [{ pos1 := lower, pos2 := higher, interval := interval,
                  intervalName := getIntervalName interval,
                  type := if ((pr.1.fret : Int) - (pr.2.fret : Int)).natAbs = 0
                          then DyadType.straight else DyadType.slant }],
       st.2 ++ [key])

/-- The final sort comparator (same shape as revision 1). -/
def dyadCompare (a b : Dyad) : Int :=
  if minFret a ≠ minFret b then (minFret a : Int) - (minFret b : Int)
  else (a.pos1.string : Int) - (b.pos1.string : Int)

/-- The comparator order `dyadCompare a b ≤ 0` of the final sort. -/
def dyadLE (a b : Dyad) : Prop := dyadCompare a b ≤ 0

instance : DecidableRel dyadLE := fun a b => Int.decLe (dyadCompare a b) 0

/-- Revision-2 `findDyads`: plain (lever-free) positions, all pairs,
filter/dedup/classify, stable final sort. -/
def findDyads (chordTones : List NoteName) (maxSlant : Nat)
    (tuning : List NoteName) (maxFret : Nat) : List Dyad :=
  let positions := findChordPositions chordTones tuning maxFret
  List.insertionSort dyadLE
    (((allPairs positions).foldl (dyadStep maxSlant) ([], [])).1)

/-- Revision-2 `dyadsOverlap` (same body as revision 1). -/
def dyadsOverlap (a b : Dyad) (fretProximity : Nat) : Bool :=
  let aPositions := [(a.pos1.string, a.pos1.fret), (a.pos2.string, a.pos2.fret)]
  let bPositions := [(b.pos1.string, b.pos1.fret), (b.pos2.string, b.pos2.fret)]
  if aPositions.any (fun p => bPositions.contains p) then true
  else
    let fretsClose := decide (((minFret a : Int) - (minFret b : Int)).natAbs ≤ fretProximity)
    let stringsOverlap :=
      [a.pos1.string, a.pos2.string].any
        (fun s => [b.pos1.string, b.pos2.string].contains s)
    fretsClose && stringsOverlap

/-- `getChordDegree`: interval from the chord root to the note. -/
def getChordDegree (note : NoteName) (chordRoot : NoteName) : Int :=
  getInterval chordRoot note

/-- `getDegreeImportance`: harmonic importance of an interval-from-root. -/
def getDegreeImportance (degree : Int) : Nat :=
  match degree with
  | 3 => 10
  | 4 => 10
  | 10 => 9
  | 11 => 9
  | 0 => 6
  | 1 => 4
  | 2 => 4
  | 8 => 3
  | 9 => 3
  | 5 => 3
  | 6 => 3
  | 7 => 2
  | _ => 0

/-- The scored-dyad sort comparator of revision 2: descending score, tie
broken by ascending min fret. -/
def scoredCompare (a b : Dyad × Nat) : Int :=
  if a.2 ≠ b.2 then (b.2 : Int) - (a.2 : Int)
  else (minFret a.1 : Int) - (minFret b.1 : Int)

/-- The comparator order `scoredCompare a b ≤ 0`. -/
def scoredLE (a b : Dyad × Nat) : Prop := scoredCompare a b ≤ 0

instance : DecidableRel scoredLE := fun a b => Int.decLe (scoredCompare a b) 0

/-- The display-order comparator of the final sort (min fret ascending). -/
def minFretLE (a b : Dyad) : Prop := (minFret a : Int) - (minFret b : Int) ≤ 0

instance : DecidableRel minFretLE := fun a b => Int.decLe ((minFret a : Int) - (minFret b : Int)) 0

/-- Revision-2 `filterGuideTones` (Policy B): score each dyad by the sum of
its two notes' degree importances, reject equal-degree dyads and scores
below 8, then greedily select non-overlapping dyads in score order and
re-sort by min fret.  A `null` chord root yields the empty list. -/
def filterGuideTones (dyads : List Dyad) (chordRoot : Option NoteName)
    (fretProximity : Nat) : List Dyad :=
  match chordRoot with
  | none => []
  | some root =>
    let scored := dyads.filterMap (fun d =>
      let degree1 := getChordDegree d.pos1.note root
      let degree2 := getChordDegree d.pos2.note root
      if degree1 = degree2 then none
      else if 8 ≤ getDegreeImportance degree1 + getDegreeImportance degree2
      then some (d, getDegreeImportance degree1 + getDegreeImportance degree2)
      else none)
    let sorted := List.insertionSort scoredLE scored
    let selected := sorted.foldl
      (fun sel ds => if sel.any (fun s => dyadsOverlap ds.1 s fretProximity)
                     then sel else sel ++ [ds.1]) []
    List.insertionSort minFretLE selected

end DyadsRev2

namespace DyadsRev3

/-- Provenance tags of the role-pair revision (no lever source exists in
this revision). -/
inductive Source
  | direct
  | diatonicSub
  | tritoneSub
deriving DecidableEq, Repr

/-- The dyad of the role-pair revision of the dyad module — the revision
staged as the second document of the audio.ts source file: lever-free,
with priority and substitution provenance. -/
structure Dyad where
  pos1 : FretPosition
  pos2 : FretPosition
  interval : Int
  intervalName : String
  type : DyadType
  priority : Nat
  source : Source
  substitutionInfo : Option (String × String) := none
deriving DecidableEq, Repr

/-- The `INTERVAL_PRIORITY` table of this revision (`?? 0` fallback),
identical entry for entry to revision 1's. -/
def getDyadPriority (interval : Int) : Nat :=
  match interval with
  | 3 => 10
  | 4 => 10
  | 10 => 9
  | 11 => 9
  | 6 => 8
  | 7 => 5
  | 8 => 4
  | 9 => 4
  | 5 => 3
  | 2 => 2
  | 1 => 1
  | 0 => 0
  | _ => 0

/-- The dedup key of this revision: the two canonical coordinates. -/
abbrev DyadKey := Nat × Nat × Nat × Nat

/-- Lower fret of a dyad. -/
def minFret (d : Dyad) : Nat := min d.pos1.fret d.pos2.fret

/-- One iteration of the pair loop of this revision's `findDyads`. -/
def dyadStep (maxSlant : Nat) (st : List Dyad × List DyadKey)
    (pr : FretPosition × FretPosition) : List Dyad × List DyadKey :=
  if pr.1.string = pr.2.string then st
  else if maxSlant < ((pr.1.fret : Int) - (pr.2.fret : Int)).natAbs then st
  else
    let lower := if pr.1.string < pr.2.string then pr.1 else pr.2
    let higher := if pr.1.string < pr.2.string then pr.2 else pr.1
    let key : DyadKey := (lower.string, lower.fret, higher.string, higher.fret)
    if key ∈ st.2 then st
    else
      let interval := getInterval lower.note higher.note
      (st.1 ++ [{ pos1 := lower, pos2 := higher, interval := interval,
                  intervalName := getIntervalName interval,
                  type := if ((pr.1.fret : Int) - (pr.2.fret : Int)).natAbs = 0
                          then DyadType.straight else DyadType.slant,
                  priority := getDyadPriority interval,
                  source := Source.direct }],
       st.2 ++ [key])

/-- The final sort comparator of this revision's `findDyads` (same shape
as the other revisions). -/
def dyadCompare (a b : Dyad) : Int :=
  if minFret a ≠ minFret b then (minFret a : Int) - (minFret b : Int)
  else (a.pos1.string : Int) - (b.pos1.string : Int)

/-- The comparator order `dyadCompare a b ≤ 0` of the final sort. -/
def dyadLE (a b : Dyad) : Prop := dyadCompare a b ≤ 0

instance : DecidableRel dyadLE := fun a b => Int.decLe (dyadCompare a b) 0

/-- This revision's `findDyads`: lever-free positions, all pairs,
filter/dedup/classify with priority, stable final sort. -/
def findDyads (chordTones : List NoteName) (maxSlant : Nat)
    (tuning : List NoteName) (maxFret : Nat) : List Dyad :=
  let positions := findChordPositions chordTones tuning maxFret
  List.insertionSort dyadLE
    (((allPairs positions).foldl (dyadStep maxSlant) ([], [])).1)

/-- This revision's `dyadsOverlap` (same body as the other revisions). -/
def dyadsOverlap (a b : Dyad) (fretProximity : Nat) : Bool :=
  let aPositions := [(a.pos1.string, a.pos1.fret), (a.pos2.string, a.pos2.fret)]
  let bPositions := [(b.pos1.string, b.pos1.fret), (b.pos2.string, b.pos2.fret)]
  if aPositions.any (fun p => bPositions.contains p) then true
  else
    let fretsClose := decide (((minFret a : Int) - (minFret b : Int)).natAbs ≤ fretProximity)
    let stringsOverlap :=
      [a.pos1.string, a.pos2.string].any
        (fun s => [b.pos1.string, b.pos2.string].contains s)
    fretsClose && stringsOverlap

/-- The guide-tone roles of this revision (`null` is `none`). -/
inductive GuideToneRole
  | third
  | seventh
deriving DecidableEq, Repr

/-- `getGuideToneRole`: third for interval-from-root 3 or 4, seventh for
10 or 11, null otherwise. -/
def getGuideToneRole (note : NoteName) (chordRoot : NoteName) :
    Option GuideToneRole :=
  let interval := getInterval chordRoot note
  if interval = 3 ∨ interval = 4 then some GuideToneRole.third
  else if interval = 10 ∨ interval = 11 then some GuideToneRole.seventh
  else none

/-- The sort order of this revision's `filterGuideTones` (min fret
ascending, no tie-break). -/
def minFretLE (a b : Dyad) : Prop := (minFret a : Int) - (minFret b : Int) ≤ 0

instance : DecidableRel minFretLE :=
  fun a b => Int.decLe ((minFret a : Int) - (minFret b : Int)) 0

/-- This revision's `filterGuideTones` (the spec's Policy A): keep only
dyads whose two notes' roles are exactly one third and one seventh in
either order, sort by min fret, then greedily select non-overlapping
dyads; a `null` chord root yields the empty list and the selected list is
returned without a further sort. -/
def filterGuideTones (dyads : List Dyad) (chordRoot : Option NoteName)
    (fretProximity : Nat) : List Dyad :=
  match chordRoot with
  | none => []
  | some root =>
    let guideToneDyads := dyads.filter (fun d =>
      (getGuideToneRole d.pos1.note root = some GuideToneRole.third ∧
        getGuideToneRole d.pos2.note root = some GuideToneRole.seventh) ∨
      (getGuideToneRole d.pos1.note root = some GuideToneRole.seventh ∧
        getGuideToneRole d.pos2.note root = some GuideToneRole.third))
    let sorted := List.insertionSort minFretLE guideToneDyads
    sorted.foldl
      (fun sel d => if sel.any (fun s => dyadsOverlap d s fretProximity)
                    then sel else sel ++ [d]) []

end DyadsRev3

/-! ## Substitution resolver (substitutions.ts) -/

/-- The seven diatonic scale-degree labels. -/
inductive Degree
  | I | ii | iii | IV | V | vi | viiDim
deriving DecidableEq, Fintype, Repr

/-- `DIATONIC_SUBSTITUTIONS`: degrees sharing harmonic function. -/
def DIATONIC_SUBSTITUTIONS : Degree → List Degree
  | Degree.I => [Degree.iii, Degree.vi]
  | Degree.ii => [Degree.IV]
  | Degree.iii => [Degree.I, Degree.vi]
  | Degree.IV => [Degree.ii, Degree.vi]
  | Degree.V => [Degree.viiDim]
  | Degree.vi => [Degree.I, Degree.iii]
  | Degree.viiDim => [Degree.V]

/-- `DEGREE_SEMITONES`: major-scale offset of each degree from the tonic. -/
def DEGREE_SEMITONES : Degree → Nat
  | Degree.I => 0
  | Degree.ii => 2
  | Degree.iii => 4
  | Degree.IV => 5
  | Degree.V => 7
  | Degree.vi => 9
  | Degree.viiDim => 11

/-- `DEGREE_QUALITY`: chord quality suffix used for each degree. -/
def DEGREE_QUALITY : Degree → String
  | Degree.I => ""
  | Degree.ii => "m"
  | Degree.iii => "m"
  | Degree.IV => ""
  | Degree.V => "7"
  | Degree.vi => "m"
  | Degree.viiDim => "m7b5"

/-- Substitute degree label: a diatonic degree or the literal `bII7` marker. -/
inductive SubDegree
  | ofDegree (d : Degree)
  | bII7
deriving DecidableEq, Repr

/-- Substitution kind tag. -/
inductive SubType
  | diatonic
  | tritone
deriving DecidableEq, Repr

/-- A substitution candidate. -/
structure SubstitutionInfo where
  substituteDegree : SubDegree
  substituteChord : String
  substituteTones : List NoteName
  type : SubType
deriving DecidableEq, Repr

/-- `getTonicFromChord`: transpose the chord root down by the degree offset. -/
def getTonicFromChord (chordRoot : NoteName) (degree : Degree) : NoteName :=
  transposeNote chordRoot (-(DEGREE_SEMITONES degree : Int))

/-- `buildChordFromDegree`: root (tonic transposed up) plus quality suffix. -/
def buildChordFromDegree (tonic : NoteName) (degree : Degree) : String :=
  noteNameStr (transposeNote tonic (DEGREE_SEMITONES degree)) ++ DEGREE_QUALITY degree

/-- `getTritoneSubstitution`: the dominant-7 chord rooted 6 semitones away. -/
def getTritoneSubstitution (dominantRoot : NoteName) :
    Except MusicError (String × List NoteName) := do
  let subRoot := transposeNote dominantRoot 6
  let chord := noteNameStr subRoot ++ "7"
  let tones ← getChordTones chord
  pure (chord, tones)

/-- `getSubstitutions`: diatonic substitutes from the function table, plus
(for degree V only) a tritone substitute tagged with the literal `bII7`. -/
def getSubstitutions (chordRoot : NoteName) (degree : Degree) :
    Except MusicError (List SubstitutionInfo) := do
  let tonic := getTonicFromChord chordRoot degree
  let diatonic ← (DIATONIC_SUBSTITUTIONS degree).mapM (fun subDegree => do
    let subChord := buildChordFromDegree tonic subDegree
    let subTones ← getChordTones subChord
    pure (SubstitutionInfo.mk (SubDegree.ofDegree subDegree) subChord subTones
            SubType.diatonic))
  if degree = Degree.V then do
    let tritone ← getTritoneSubstitution chordRoot
    pure (diatonic ++ [SubstitutionInfo.mk SubDegree.bII7 tritone.1 tritone.2
            SubType.tritone])
  else
    pure diatonic

/-- The substitution list with the (never occurring) error case defaulted,
for stating claims about the produced candidates. -/
def substitutionList (chordRoot : NoteName) (degree : Degree) :
    List SubstitutionInfo :=
  (getSubstitutions chordRoot degree).toOption.getD []

/-! ## Helper lemmas -/

instance {ε α : Type} [DecidableEq ε] [DecidableEq α] : DecidableEq (Except ε α) :=
  fun x y =>
    match x, y with
    | Except.ok a, Except.ok b =>
      if h : a = b then isTrue (by rw [h]) else isFalse (fun hh => h (Except.ok.inj hh))
    | Except.error e, Except.error f =>
      if h : e = f then isTrue (by rw [h]) else isFalse (fun hh => h (Except.error.inj hh))
    | Except.ok a, Except.error f => isFalse (fun hh => Except.noConfusion hh)
    | Except.error e, Except.ok b => isFalse (fun hh => Except.noConfusion hh)

theorem noteToSemitone_lt (n : NoteName) : noteToSemitone n < 12 := by
  cases n <;> decide

theorem semitoneToNote_noteToSemitone (n : NoteName) :
    semitoneToNote (noteToSemitone n) = n := by
  cases n <;> rfl

/-- Elements accumulated by the greedy non-overlap selection loop come from
the initial accumulator or (via the push `h`) from the candidate list. -/
theorem greedy_foldl_mem {α β : Type} (g : List β → α → Bool) (h : α → β) :
    ∀ (l : List α) (acc : List β) (x : β),
      x ∈ l.foldl (fun sel d => if g sel d then sel else sel ++ [h d]) acc →
      x ∈ acc ∨ ∃ a ∈ l, x = h a := by
  intro l
  induction l with
  | nil => exact fun acc x hx => Or.inl hx
  | cons d tl ih =>
    intro acc x hx
    rw [List.foldl_cons] at hx
    rcases ih _ x hx with hacc | ⟨a, ha, rfl⟩
    · by_cases hg : g acc d
      · rw [if_pos hg] at hacc
        exact Or.inl hacc
      · rw [if_neg hg, List.mem_append] at hacc
        rcases hacc with hacc | hx1
        · exact Or.inl hacc
        · exact Or.inr ⟨d, List.mem_cons_self d tl, (List.mem_singleton.mp hx1)⟩
    · exact Or.inr ⟨a, List.mem_cons_of_mem d ha, rfl⟩

/-! ## Claim theorems -/

/-- C9: for every pair of pitch classes `a`, `b`, both `getInterval a b` and
`getInterval b a` lie in [0,11], they sum to 0 mod 12 (equivalently
`getInterval b a = (12 - getInterval a b) % 12`), and both are 0 when the
two notes reduce to the same semitone. -/
theorem getInterval_antisymmetric_mod12 : ∀ a b : NoteName,
    (0 ≤ getInterval a b ∧ getInterval a b ≤ 11) ∧
    (0 ≤ getInterval b a ∧ getInterval b a ≤ 11) ∧
    (getInterval a b + getInterval b a) % 12 = 0 ∧
    getInterval b a = (12 - getInterval a b) % 12 ∧
    (noteToSemitone a = noteToSemitone b →
      getInterval a b = 0 ∧ getInterval b a = 0) := by
  decide

theorem getInterval_antisymmetric_mod12_witness :
    getInterval NoteName.C NoteName.C = 0 ∧ getInterval NoteName.C NoteName.C = 0 :=
  (getInterval_antisymmetric_mod12 NoteName.C NoteName.C).2.2.2.2 rfl

/-- C5: `getSubstitutions` always succeeds; it produces exactly one
tritone-kind candidate when the degree is V and none otherwise; every
tritone candidate is rooted 6 semitones above the original root with the
dominant-7 quality suffix and the literal `bII7` degree label; and for
root G at degree V the tritone candidate is C#7 with tones [C#,F,G#,B]. -/
theorem substitutions_tritone_iff_V : ∀ (root : NoteName) (degree : Degree),
    getSubstitutions root degree = Except.ok (substitutionList root degree) ∧
    (substitutionList root degree).countP
        (fun s => decide (s.type = SubType.tritone)) =
      (if degree = Degree.V then 1 else 0) ∧
    (∀ s ∈ substitutionList root degree, s.type = SubType.tritone →
      s.substituteChord = noteNameStr (transposeNote root 6) ++ "7" ∧
      s.substituteDegree = SubDegree.bII7 ∧
      getChordTones s.substituteChord = Except.ok s.substituteTones) ∧
    SubstitutionInfo.mk SubDegree.bII7 "C#7"
        [NoteName.Cs, NoteName.F, NoteName.Gs, NoteName.B] SubType.tritone ∈
      substitutionList NoteName.G Degree.V := by
  decide

theorem substitutions_tritone_iff_V_witness :
    (SubstitutionInfo.mk SubDegree.bII7 "C#7"
        [NoteName.Cs, NoteName.F, NoteName.Gs, NoteName.B]
        SubType.tritone).substituteChord =
      noteNameStr (transposeNote NoteName.G 6) ++ "7" ∧
    (SubstitutionInfo.mk SubDegree.bII7 "C#7"
        [NoteName.Cs, NoteName.F, NoteName.Gs, NoteName.B]
        SubType.tritone).substituteDegree = SubDegree.bII7 ∧
    getChordTones (SubstitutionInfo.mk SubDegree.bII7 "C#7"
        [NoteName.Cs, NoteName.F, NoteName.Gs, NoteName.B]
        SubType.tritone).substituteChord =
      Except.ok (SubstitutionInfo.mk SubDegree.bII7 "C#7"
        [NoteName.Cs, NoteName.F, NoteName.Gs, NoteName.B]
        SubType.tritone).substituteTones :=
  (substitutions_tritone_iff_V NoteName.G Degree.V).2.2.1 _ (by decide) rfl

/-- C7 counterexample: "toString" is a recognized-root-plus-non-empty
suffix absent from the closed `CHORD_INTERVALS` table, yet the JavaScript
lookup `CHORD_INTERVALS["toString"]` is a truthy inherited function, so
`parseChord "CtoString"` raises no unknown-quality error and expansion
instead dies with a `TypeError` when `.map` is called on the function. -/
theorem chord_expansion_unknown_quality_cex :
    splitChordSymbol "CtoString" = some ("C", "toString") ∧
    CHORD_INTERVALS "toString" = none ∧
    ("toString" : String) ≠ "" ∧
    parseChord "CtoString" =
      Except.ok (NormalizedNote.note NoteName.C, "toString") ∧
    getChordTones "CtoString" =
      Except.error (MusicError.typeError "intervals.map is not a function") := by
  decide

/-- C7 amended: whenever the chord symbol splits into a recognized root
and a non-empty quality suffix that is neither a `CHORD_INTERVALS` key nor
an inherited `Object.prototype` property name, parsing and expansion fail
with the unknown-quality error; a suffix that is an inherited prototype
name passes the quality check and expansion fails with a `TypeError`
instead (and a suffix containing a line terminator never reaches the
check — the symbol pattern itself fails); an empty suffix expands to the
major triad [root, root+4, root+7]; concretely `expandChord "C"` gives
[C,E,G], `"Am7"` gives [A,C,E,G], `"F#dim"` gives [F#,A,C]. -/
theorem chord_expansion_quality_table :
    (∀ (chord rootStr quality : String) (r : NoteName),
      splitChordSymbol chord = some (rootStr, quality) →
      normalizeNote rootStr = Except.ok (NormalizedNote.note r) →
      (quality ≠ "" → CHORD_INTERVALS quality = none →
        ¬ quality ∈ objectProtoProperties →
        parseChord chord = Except.error (MusicError.unknownQuality quality) ∧
        getChordTones chord = Except.error (MusicError.unknownQuality quality)) ∧
      (quality ≠ "" → CHORD_INTERVALS quality = none →
        quality ∈ objectProtoProperties →
        parseChord chord = Except.ok (NormalizedNote.note r, quality) ∧
        getChordTones chord =
          Except.error (MusicError.typeError "intervals.map is not a function")) ∧
      (quality = "" →
        getChordTones chord = Except.ok [r, transposeNote r 4, transposeNote r 7])) ∧
    getChordTones "C" = Except.ok [NoteName.C, NoteName.E, NoteName.G] ∧
    getChordTones "Am7" =
      Except.ok [NoteName.A, NoteName.C, NoteName.E, NoteName.G] ∧
    getChordTones "F#dim" = Except.ok [NoteName.Fs, NoteName.A, NoteName.C] := by
  refine ⟨?_, by decide, by decide, by decide⟩
  intro chord rootStr quality r hsplit hnorm
  refine ⟨?_, ?_, ?_⟩
  · intro hq hnone hproto
    have hp : parseChord chord = Except.error (MusicError.unknownQuality quality) := by
      simp [parseChord, hsplit, hnorm, hq, hnone, hproto]
    exact ⟨hp, by simp [getChordTones, hp]⟩
  · intro hq hnone hproto
    have hp : parseChord chord = Except.ok (NormalizedNote.note r, quality) := by
      simp [parseChord, hsplit, hnorm, hq, hnone, hproto]
    exact ⟨hp, by simp [getChordTones, hp, hnone, hproto]⟩
  · intro hq
    subst hq
    have hp : parseChord chord = Except.ok (NormalizedNote.note r, "") := by
      simp [parseChord, hsplit, hnorm]
    simp [getChordTones, hp, CHORD_INTERVALS, transposeNote,
      semitoneToNote_noteToSemitone r]

theorem chord_expansion_quality_table_witness :
    (parseChord "Cxyz" = Except.error (MusicError.unknownQuality "xyz") ∧
     getChordTones "Cxyz" = Except.error (MusicError.unknownQuality "xyz")) ∧
    (parseChord "CtoString" =
       Except.ok (NormalizedNote.note NoteName.C, "toString") ∧
     getChordTones "CtoString" =
       Except.error (MusicError.typeError "intervals.map is not a function")) ∧
    getChordTones "F" =
      Except.ok [NoteName.F, transposeNote NoteName.F 4, transposeNote NoteName.F 7] :=
  ⟨(chord_expansion_quality_table.1 "Cxyz" "C" "xyz" NoteName.C (by decide)
      (by decide)).1 (by decide) (by decide) (by decide),
   (chord_expansion_quality_table.1 "CtoString" "C" "toString" NoteName.C
      (by decide) (by decide)).2.1 (by decide) (by decide) (by decide),
   (chord_expansion_quality_table.1 "F" "F" "" NoteName.F (by decide)
      (by decide)).2.2 rfl⟩

/-- A dyad pairing the root and the minor third of C, exactly as produced
by revision-1 `findDyads` on chord tones [C, D#] over the tuning [C, D#]. -/
def cexDyadA : DyadsRev1.Dyad :=
  { pos1 := { string := 0, fret := 0, note := NoteName.C }
    pos2 := { string := 1, fret := 0, note := NoteName.Ds }
    interval := 3
    intervalName := "m3"
    type := DyadType.straight
    priority := 10
    source := DyadSource.direct
    leverPositions := [] }

/-- The role classification read back as interval conditions: `third`
exactly on intervals 3 and 4. -/
theorem getGuideToneRole_third_iff : ∀ note root : NoteName,
    DyadsRev3.getGuideToneRole note root = some DyadsRev3.GuideToneRole.third ↔
      (getInterval root note = 3 ∨ getInterval root note = 4) := by
  decide

/-- The role classification read back as interval conditions: `seventh`
exactly on intervals 10 and 11. -/
theorem getGuideToneRole_seventh_iff : ∀ note root : NoteName,
    DyadsRev3.getGuideToneRole note root = some DyadsRev3.GuideToneRole.seventh ↔
      (getInterval root note = 10 ∨ getInterval root note = 11) := by
  decide

/-- C6: under Policy A — the role-pair `filterGuideTones` of the dyad
revision staged in the audio.ts source document — a dyad is kept only if
one of its notes is at interval {3,4} from the reference root (role third)
and the other at interval {10,11} (role seventh), order-independent. -/
theorem filterGuideTonesA_role_pairs (dyads : List DyadsRev3.Dyad)
    (root : NoteName) (fretProximity : Nat) :
    ∀ d ∈ DyadsRev3.filterGuideTones dyads (some root) fretProximity,
      ((getInterval root d.pos1.note = 3 ∨ getInterval root d.pos1.note = 4) ∧
        (getInterval root d.pos2.note = 10 ∨ getInterval root d.pos2.note = 11)) ∨
      ((getInterval root d.pos1.note = 10 ∨ getInterval root d.pos1.note = 11) ∧
        (getInterval root d.pos2.note = 3 ∨ getInterval root d.pos2.note = 4)) := by
  intro d hd
  simp only [DyadsRev3.filterGuideTones] at hd
  rcases greedy_foldl_mem _ _ _ _ _ hd with h | ⟨a, ha, rfl⟩
  · cases h
  · rw [List.mem_insertionSort] at ha
    have hf := List.mem_filter.mp ha
    have hp := of_decide_eq_true hf.2
    rcases hp with ⟨h1, h2⟩ | ⟨h1, h2⟩
    · exact Or.inl ⟨(getGuideToneRole_third_iff _ _).mp h1,
        (getGuideToneRole_seventh_iff _ _).mp h2⟩
    · exact Or.inr ⟨(getGuideToneRole_seventh_iff _ _).mp h1,
        (getGuideToneRole_third_iff _ _).mp h2⟩

/-- An E–B dyad exactly as produced by the role-pair revision's `findDyads`
on chord tones [E, B] over the tuning [E, B]; relative to root C its notes
are the major third and the major seventh. -/
def guideToneDyadEB : DyadsRev3.Dyad :=
  { pos1 := { string := 0, fret := 0, note := NoteName.E }
    pos2 := { string := 1, fret := 0, note := NoteName.B }
    interval := 7
    intervalName := "P5"
    type := DyadType.straight
    priority := 5
    source := DyadsRev3.Source.direct }

theorem filterGuideTonesA_role_pairs_witness :
    ((getInterval NoteName.C guideToneDyadEB.pos1.note = 3 ∨
      getInterval NoteName.C guideToneDyadEB.pos1.note = 4) ∧
     (getInterval NoteName.C guideToneDyadEB.pos2.note = 10 ∨
      getInterval NoteName.C guideToneDyadEB.pos2.note = 11)) ∨
    ((getInterval NoteName.C guideToneDyadEB.pos1.note = 10 ∨
      getInterval NoteName.C guideToneDyadEB.pos1.note = 11) ∧
     (getInterval NoteName.C guideToneDyadEB.pos2.note = 3 ∨
      getInterval NoteName.C guideToneDyadEB.pos2.note = 4)) :=
  filterGuideTonesA_role_pairs
    (DyadsRev3.findDyads [NoteName.E, NoteName.B] 1 [NoteName.E, NoteName.B] 0)
    NoteName.C 2 guideToneDyadEB (by decide)

/-- The geometric invariant maintained by the revision-1 pair loop. -/
def DyadGeometryInv (maxSlant : Nat) (d : DyadsRev1.Dyad) : Prop :=
  d.pos1.string < d.pos2.string ∧
  ((d.pos1.fret : Int) - (d.pos2.fret : Int)).natAbs ≤ maxSlant ∧
  (d.type = DyadType.straight ↔
    ((d.pos1.fret : Int) - (d.pos2.fret : Int)).natAbs = 0)

theorem ite_dyadType_straight_iff (c : Prop) [Decidable c] :
    ((if c then DyadType.straight else DyadType.slant) = DyadType.straight) ↔ c := by
  by_cases h : c
  · simp [h]
  · simp [h]

theorem dyadStep_preserves (maxSlant : Nat)
    (st : List DyadsRev1.Dyad × List DyadsRev1.DyadKey)
    (pr : FretPosition × FretPosition)
    (hinv : ∀ d ∈ st.1, DyadGeometryInv maxSlant d) :
    ∀ d ∈ (DyadsRev1.dyadStep maxSlant st pr).1, DyadGeometryInv maxSlant d := by
  intro d hd
  simp only [DyadsRev1.dyadStep] at hd
  split at hd
  · exact hinv d hd
  · split at hd
    · exact hinv d hd
    · rename_i hne hslant
      split at hd
      · rename_i hlt
        split at hd
        · exact hinv d hd
        · rw [List.mem_append] at hd
          rcases hd with hd | hd
          · exact hinv d hd
          · rw [List.mem_singleton] at hd
            subst hd
            refine ⟨hlt, ?_, ?_⟩
            · show ((pr.1.fret : Int) - (pr.2.fret : Int)).natAbs ≤ maxSlant
              omega
            · show ((if ((pr.1.fret : Int) - (pr.2.fret : Int)).natAbs = 0
                      then DyadType.straight else DyadType.slant) = DyadType.straight) ↔
                ((pr.1.fret : Int) - (pr.2.fret : Int)).natAbs = 0
              rw [ite_dyadType_straight_iff]
      · rename_i hlt
        split at hd
        · exact hinv d hd
        · rw [List.mem_append] at hd
          rcases hd with hd | hd
          · exact hinv d hd
          · rw [List.mem_singleton] at hd
            subst hd
            refine ⟨?_, ?_, ?_⟩
            · show pr.2.string < pr.1.string
              omega
            · show ((pr.2.fret : Int) - (pr.1.fret : Int)).natAbs ≤ maxSlant
              omega
            · show ((if ((pr.1.fret : Int) - (pr.2.fret : Int)).natAbs = 0
                      then DyadType.straight else DyadType.slant) = DyadType.straight) ↔
                ((pr.2.fret : Int) - (pr.1.fret : Int)).natAbs = 0
              rw [ite_dyadType_straight_iff]
              omega

theorem foldl_dyadStep_inv (maxSlant : Nat) :
    ∀ (prs : List (FretPosition × FretPosition))
      (st : List DyadsRev1.Dyad × List DyadsRev1.DyadKey),
      (∀ d ∈ st.1, DyadGeometryInv maxSlant d) →
      ∀ d ∈ (prs.foldl (DyadsRev1.dyadStep maxSlant) st).1,
        DyadGeometryInv maxSlant d := by
  intro prs
  induction prs with
  | nil => intro st h; simpa using h
  | cons pr tl ih =>
    intro st h
    rw [List.foldl_cons]
    exact ih _ (dyadStep_preserves maxSlant st pr h)

/-- C1: every dyad returned by revision-1 `findDyads` has its two positions
on different strings (lower string index stored first), absolute fret
difference at most `maxSlant`, and is classified `straight` exactly when
the fret difference is 0 and `slant` otherwise. -/
theorem findDyads_pair_geometry (chordTones : List NoteName) (maxSlant : Nat)
    (tuning : List NoteName) (maxFret : Nat) (useLevers : Bool) :
    ∀ d ∈ DyadsRev1.findDyads chordTones maxSlant tuning maxFret useLevers,
      d.pos1.string ≠ d.pos2.string ∧
      d.pos1.string < d.pos2.string ∧
      ((d.pos1.fret : Int) - (d.pos2.fret : Int)).natAbs ≤ maxSlant ∧
      (d.type = DyadType.straight ↔
        ((d.pos1.fret : Int) - (d.pos2.fret : Int)).natAbs = 0) ∧
      (d.type = DyadType.slant ↔
        ((d.pos1.fret : Int) - (d.pos2.fret : Int)).natAbs ≠ 0) := by
  intro d hd
  simp only [DyadsRev1.findDyads] at hd
  rw [List.mem_insertionSort] at hd
  obtain ⟨h1, h2, h3⟩ := foldl_dyadStep_inv maxSlant _ ([], []) (by simp) d hd
  refine ⟨Nat.ne_of_lt h1, h1, h2, h3, ?_, ?_⟩
  · intro hs h0
    have := h3.mpr h0
    rw [hs] at this
    cases this
  · intro h0
    cases htype : d.type with
    | straight => exact absurd (h3.mp htype) h0
    | slant => rfl

theorem findDyads_pair_geometry_witness :
    cexDyadA.pos1.string ≠ cexDyadA.pos2.string ∧
    cexDyadA.pos1.string < cexDyadA.pos2.string ∧
    ((cexDyadA.pos1.fret : Int) - (cexDyadA.pos2.fret : Int)).natAbs ≤ 1 ∧
    (cexDyadA.type = DyadType.straight ↔
      ((cexDyadA.pos1.fret : Int) - (cexDyadA.pos2.fret : Int)).natAbs = 0) ∧
    (cexDyadA.type = DyadType.slant ↔
      ((cexDyadA.pos1.fret : Int) - (cexDyadA.pos2.fret : Int)).natAbs ≠ 0) :=
  findDyads_pair_geometry [NoteName.C, NoteName.Ds] 1 [NoteName.C, NoteName.Ds]
    0 false cexDyadA (by decide)

theorem dyadCompare_le_iff (a b : DyadsRev1.Dyad) :
    DyadsRev1.dyadLE a b ↔
      (DyadsRev1.minFret a < DyadsRev1.minFret b ∨
        (DyadsRev1.minFret a = DyadsRev1.minFret b ∧
          a.pos1.string ≤ b.pos1.string)) := by
  unfold DyadsRev1.dyadLE DyadsRev1.dyadCompare
  split <;> omega

/-- C4: the sequence returned by revision-1 `findDyads` is sorted ascending
by `min(fret1, fret2)` with ties broken by ascending lower-string index,
and the function is deterministic (identical arguments give identical
output). -/
theorem findDyads_sorted_deterministic (chordTones : List NoteName)
    (maxSlant : Nat) (tuning : List NoteName) (maxFret : Nat) (useLevers : Bool) :
    List.Pairwise
      (fun a b => DyadsRev1.minFret a < DyadsRev1.minFret b ∨
        (DyadsRev1.minFret a = DyadsRev1.minFret b ∧
          a.pos1.string ≤ b.pos1.string))
      (DyadsRev1.findDyads chordTones maxSlant tuning maxFret useLevers) ∧
    DyadsRev1.findDyads chordTones maxSlant tuning maxFret useLevers =
      DyadsRev1.findDyads chordTones maxSlant tuning maxFret useLevers := by
  refine ⟨?_, rfl⟩
  haveI : IsTotal DyadsRev1.Dyad DyadsRev1.dyadLE :=
    ⟨fun a b => by rw [dyadCompare_le_iff, dyadCompare_le_iff]; omega⟩
  haveI : IsTrans DyadsRev1.Dyad DyadsRev1.dyadLE :=
    ⟨fun a b c hab hbc => by
      rw [dyadCompare_le_iff] at hab hbc ⊢
      omega⟩
  simp only [DyadsRev1.findDyads]
  exact List.Pairwise.imp (fun h => (dyadCompare_le_iff _ _).mp h)
    (List.sorted_insertionSort DyadsRev1.dyadLE _)

/-- A dyad pairing the root and the major third of C, as revision-2
`findDyads` would canonically store it; used to instantiate the Policy B
scoring theorem. -/
def rootThirdDyad : DyadsRev2.Dyad :=
  { pos1 := { string := 0, fret := 0, note := NoteName.C }
    pos2 := { string := 1, fret := 0, note := NoteName.E }
    interval := 4
    intervalName := "M3"
    type := DyadType.straight }

/-- C2: a dyad survives the revision-2 guide-tone filter (Policy B) only if
its two notes' intervals from the chord root differ and their importance
scores sum to at least 8; on the C-major-7 tones [C,E,G,B] with root C, no
kept dyad has both notes at interval 0 or both at interval 4, and some kept
dyad pairs interval 4 (E) with interval 11 (B). -/
theorem filterGuideTonesB_scoring :
    (∀ (dyads : List DyadsRev2.Dyad) (root : NoteName) (fretProximity : Nat),
      ∀ d ∈ DyadsRev2.filterGuideTones dyads (some root) fretProximity,
        DyadsRev2.getChordDegree d.pos1.note root ≠
          DyadsRev2.getChordDegree d.pos2.note root ∧
        8 ≤ DyadsRev2.getDegreeImportance (DyadsRev2.getChordDegree d.pos1.note root) +
            DyadsRev2.getDegreeImportance (DyadsRev2.getChordDegree d.pos2.note root)) ∧
    (∀ d ∈ DyadsRev2.filterGuideTones
        (DyadsRev2.findDyads [NoteName.C, NoteName.E, NoteName.G, NoteName.B] 1
          LAP_STEEL_TUNING 24) (some NoteName.C) 3,
      ¬(DyadsRev2.getChordDegree d.pos1.note NoteName.C = 0 ∧
        DyadsRev2.getChordDegree d.pos2.note NoteName.C = 0) ∧
      ¬(DyadsRev2.getChordDegree d.pos1.note NoteName.C = 4 ∧
        DyadsRev2.getChordDegree d.pos2.note NoteName.C = 4)) ∧
    (∃ d ∈ DyadsRev2.filterGuideTones
        (DyadsRev2.findDyads [NoteName.C, NoteName.E, NoteName.G, NoteName.B] 1
          LAP_STEEL_TUNING 24) (some NoteName.C) 3,
      DyadsRev2.getChordDegree d.pos1.note NoteName.C = 4 ∧
      DyadsRev2.getChordDegree d.pos2.note NoteName.C = 11) := by
  refine ⟨?_, by decide, by decide⟩
  intro dyads root fretProximity d hd
  simp only [DyadsRev2.filterGuideTones] at hd
  rw [List.mem_insertionSort] at hd
  rcases greedy_foldl_mem _ _ _ _ _ hd with h | ⟨a, ha, rfl⟩
  · cases h
  · rw [List.mem_insertionSort, List.mem_filterMap] at ha
    obtain ⟨d0, _hd0, heq⟩ := ha
    split at heq
    · cases heq
    · rename_i hdiff
      split at heq
      · rename_i hscore
        cases heq
        exact ⟨hdiff, hscore⟩
      · cases heq

theorem filterGuideTonesB_scoring_witness :
    DyadsRev2.getChordDegree rootThirdDyad.pos1.note NoteName.C ≠
      DyadsRev2.getChordDegree rootThirdDyad.pos2.note NoteName.C ∧
    8 ≤ DyadsRev2.getDegreeImportance
          (DyadsRev2.getChordDegree rootThirdDyad.pos1.note NoteName.C) +
        DyadsRev2.getDegreeImportance
          (DyadsRev2.getChordDegree rootThirdDyad.pos2.note NoteName.C) :=
  filterGuideTonesB_scoring.1 [rootThirdDyad] NoteName.C 3 rootThirdDyad (by decide)

/-- A lever's string is recorded as engaged whenever its bent note is a
chord tone (by semitone). -/
theorem stringIndex_mem_leverEngagedStrings {chordTones : List NoteName}
    {levers : List LeverConfig} {lever : LeverConfig} (hmem : lever ∈ levers)
    (hEng : ∃ ct ∈ chordTones, noteToSemitone ct = noteToSemitone lever.bentNote) :
    lever.stringIndex ∈ leverEngagedStrings chordTones levers := by
  apply List.mem_map.mpr
  refine ⟨lever, List.mem_filter.mpr ⟨hmem, ?_⟩, rfl⟩
  simpa using hEng

/-- Every base-scan position is unbent and never sits at fret 0 of an
engaged string. -/
theorem standardPositions_spec (note : NoteName) (chordTones : List NoteName)
    (levers : List LeverConfig) (tuning : List NoteName) (maxFret : Nat) :
    ∀ p ∈ standardPositionsWithLevers note chordTones levers tuning maxFret,
      p.isLeverBent = false ∧
      ¬(p.fret = 0 ∧ p.string ∈ leverEngagedStrings chordTones levers) := by
  intro p hp
  simp only [standardPositionsWithLevers] at hp
  rw [List.mem_flatMap] at hp
  obtain ⟨s, _hs, hp⟩ := hp
  rw [List.mem_filterMap] at hp
  obtain ⟨f, _hf, heq⟩ := hp
  split at heq
  · cases heq
  · rename_i hskip
    split at heq
    · cases heq
      exact ⟨rfl, hskip⟩
    · cases heq

/-- Every position pushed by the lever loop is a bent fret-0 position on
that lever's string. -/
theorem leverBentPositions_spec (note : NoteName) (chordTones : List NoteName)
    (levers : List LeverConfig) :
    ∀ p ∈ leverBentPositions note chordTones levers,
      p.isLeverBent = true ∧ p.fret = 0 := by
  intro p hp
  simp only [leverBentPositions] at hp
  rw [List.mem_filterMap] at hp
  obtain ⟨lever, _hl, heq⟩ := hp
  split at heq
  · cases heq
    exact ⟨rfl, rfl⟩
  · cases heq

/-- C3: for every target note and chord-tone set, a default lever's string
is engaged exactly when its bent note is (by semitone) among the chord
tones; when additionally the target equals the bent note, exactly one
fret-0 position flagged as lever-bent is returned on that string; and the
base scan never emits a fret-0 position on an engaged string. -/
theorem findNotePositionsWithLevers_engagement (note : NoteName)
    (chordTones : List NoteName) (tuning : List NoteName) (maxFret : Nat)
    (lever : LeverConfig) (hlever : lever ∈ LEVER_CONFIG) :
    (lever.stringIndex ∈ leverEngagedStrings chordTones LEVER_CONFIG ↔
      ∃ ct ∈ chordTones, noteToSemitone ct = noteToSemitone lever.bentNote) ∧
    ((∃ ct ∈ chordTones, noteToSemitone ct = noteToSemitone lever.bentNote) →
      noteToSemitone note = noteToSemitone lever.bentNote →
      (findNotePositionsWithLevers note chordTones LEVER_CONFIG tuning
          maxFret).countP
        (fun p => decide (p.string = lever.stringIndex ∧ p.fret = 0 ∧
          p.isLeverBent = true)) = 1) ∧
    (∀ p ∈ standardPositionsWithLevers note chordTones LEVER_CONFIG tuning maxFret,
      p.string ∈ leverEngagedStrings chordTones LEVER_CONFIG → p.fret ≠ 0) := by
  refine ⟨?_, ?_, ?_⟩
  · simp only [LEVER_CONFIG, List.mem_cons, List.not_mem_nil, or_false] at hlever
    rcases hlever with rfl | rfl
    · simp only [leverEngagedStrings, LEVER_CONFIG, List.mem_map, List.mem_filter,
        List.mem_cons, List.not_mem_nil, or_false, List.any_eq_true,
        decide_eq_true_eq]
      constructor
      · rintro ⟨a, ⟨ha | ha, hx⟩, hidx⟩
        · subst ha; exact hx
        · subst ha; exact absurd hidx (by decide)
      · intro h
        exact ⟨_, ⟨Or.inl rfl, h⟩, rfl⟩
    · simp only [leverEngagedStrings, LEVER_CONFIG, List.mem_map, List.mem_filter,
        List.mem_cons, List.not_mem_nil, or_false, List.any_eq_true,
        decide_eq_true_eq]
      constructor
      · rintro ⟨a, ⟨ha | ha, hidx⟩, hx⟩
        · subst ha; exact absurd hx (by decide)
        · subst ha; exact hidx
      · intro h
        exact ⟨_, ⟨Or.inr rfl, h⟩, rfl⟩
  · intro hEng hTar
    simp only [findNotePositionsWithLevers, List.countP_append]
    have hstd : (standardPositionsWithLevers note chordTones LEVER_CONFIG tuning
        maxFret).countP
        (fun p => decide (p.string = lever.stringIndex ∧ p.fret = 0 ∧
          p.isLeverBent = true)) = 0 := by
      rw [List.countP_eq_zero]
      intro p hp
      have hfalse :=
        (standardPositions_spec note chordTones LEVER_CONFIG tuning maxFret p hp).1
      simp [hfalse]
    rw [hstd]
    simp only [LEVER_CONFIG, List.mem_cons, List.not_mem_nil, or_false] at hlever
    rcases hlever with rfl | rfl
    · simp +decide [leverBentPositions, LEVER_CONFIG, hEng, hTar,
        List.filterMap_cons, List.countP_cons]
    · simp +decide [leverBentPositions, LEVER_CONFIG, hEng, hTar,
        List.filterMap_cons, List.countP_cons]
  · intro p hp hmem hfret
    exact (standardPositions_spec note chordTones LEVER_CONFIG tuning maxFret
      p hp).2 ⟨hfret, hmem⟩

theorem findNotePositionsWithLevers_engagement_witness :
    ((⟨3, 1, NoteName.Fs, NoteName.G⟩ : LeverConfig).stringIndex ∈
        leverEngagedStrings [NoteName.G] LEVER_CONFIG ↔
      ∃ ct ∈ [NoteName.G], noteToSemitone ct =
        noteToSemitone (⟨3, 1, NoteName.Fs, NoteName.G⟩ : LeverConfig).bentNote) ∧
    (findNotePositionsWithLevers NoteName.G [NoteName.G] LEVER_CONFIG
        LAP_STEEL_TUNING 5).countP
      (fun p => decide (p.string =
        (⟨3, 1, NoteName.Fs, NoteName.G⟩ : LeverConfig).stringIndex ∧
        p.fret = 0 ∧ p.isLeverBent = true)) = 1 := by
  have h := findNotePositionsWithLevers_engagement NoteName.G [NoteName.G]
    LAP_STEEL_TUNING 5 ⟨3, 1, NoteName.Fs, NoteName.G⟩ (by decide)
  exact ⟨h.1, h.2.1 ⟨NoteName.G, by decide, rfl⟩ rfl⟩

/-- C10: when a default lever's bent note is among the chord tones, every
position returned on that lever's string at fret 0 carries the lever-bent
flag; concretely, searching F# within [G,B,D,F#] returns no open string-3
position (the nominal open F#) yet still finds F# at fret 12 there. -/
theorem lever_replaces_open_string (note : NoteName)
    (chordTones : List NoteName) (tuning : List NoteName) (maxFret : Nat)
    (lever : LeverConfig) (hlever : lever ∈ LEVER_CONFIG)
    (hEng : ∃ ct ∈ chordTones, noteToSemitone ct = noteToSemitone lever.bentNote) :
    (∀ p ∈ findNotePositionsWithLevers note chordTones LEVER_CONFIG tuning maxFret,
      p.string = lever.stringIndex → p.fret = 0 → p.isLeverBent = true) ∧
    (∀ p ∈ findNotePositionsWithLevers NoteName.Fs
        [NoteName.G, NoteName.B, NoteName.D, NoteName.Fs] LEVER_CONFIG
        LAP_STEEL_TUNING 24, ¬(p.string = 3 ∧ p.fret = 0)) ∧
    ({ string := 3, fret := 12, note := NoteName.Fs, isLeverBent := false }
        : FretPosition) ∈ findNotePositionsWithLevers NoteName.Fs
      [NoteName.G, NoteName.B, NoteName.D, NoteName.Fs] LEVER_CONFIG
      LAP_STEEL_TUNING 24 := by
  refine ⟨?_, by decide, by decide⟩
  intro p hp hstring hfret
  rw [findNotePositionsWithLevers, List.mem_append] at hp
  rcases hp with hp | hp
  · exact (leverBentPositions_spec note chordTones LEVER_CONFIG p hp).1
  · exfalso
    apply (standardPositions_spec note chordTones LEVER_CONFIG tuning maxFret
      p hp).2
    exact ⟨hfret, hstring ▸ stringIndex_mem_leverEngagedStrings hlever hEng⟩

theorem lever_replaces_open_string_witness :
    ({ string := 3, fret := 0, note := NoteName.G, isLeverBent := true }
      : FretPosition).isLeverBent = true :=
  (lever_replaces_open_string NoteName.G [NoteName.G] LAP_STEEL_TUNING 5
    ⟨3, 1, NoteName.Fs, NoteName.G⟩ (by decide)
    ⟨NoteName.G, by decide, rfl⟩).1
    { string := 3, fret := 0, note := NoteName.G, isLeverBent := true }
    (by decide) rfl rfl

/-- C8: over any tuning of at least two strings and any of the 12 pitch
classes, `findNotePositions` with `maxFret = 24` returns at least one
position, and in fact reaches the pitch class on every string within the
first 12 frets. -/
theorem findNotePositions_reachable (tuning : List NoteName) (note : NoteName)
    (h2 : 2 ≤ tuning.length) :
    findNotePositions note tuning 24 ≠ [] ∧
    ∀ s, s < tuning.length →
      ∃ p ∈ findNotePositions note tuning 24, p.string = s ∧ p.fret < 12 := by
  have hreach : ∀ s, s < tuning.length →
      ∃ p ∈ findNotePositions note tuning 24, p.string = s ∧ p.fret < 12 := by
    intro s hs
    have hopen := noteToSemitone_lt (tuning.getD s NoteName.C)
    have htarget := noteToSemitone_lt note
    refine ⟨{ string := s,
              fret := (noteToSemitone note + 12 -
                noteToSemitone (tuning.getD s NoteName.C)) % 12,
              note := note }, ?_, rfl, ?_⟩
    swap
    · show (noteToSemitone note + 12 -
        noteToSemitone (tuning.getD s NoteName.C)) % 12 < 12
      omega
    rw [findNotePositions, List.mem_flatMap]
    refine ⟨s, List.mem_range.mpr hs, ?_⟩
    rw [List.mem_filterMap]
    refine ⟨(noteToSemitone note + 12 -
      noteToSemitone (tuning.getD s NoteName.C)) % 12,
      List.mem_range.mpr (by omega), ?_⟩
    rw [if_pos (by omega)]
  refine ⟨?_, hreach⟩
  obtain ⟨p, hp, -⟩ := hreach 0 (by omega)
  exact List.ne_nil_of_mem hp

theorem findNotePositions_reachable_witness :
    findNotePositions NoteName.C LAP_STEEL_TUNING 24 ≠ [] ∧
    ∀ s, s < LAP_STEEL_TUNING.length →
      ∃ p ∈ findNotePositions NoteName.C LAP_STEEL_TUNING 24,
        p.string = s ∧ p.fret < 12 :=
  findNotePositions_reachable LAP_STEEL_TUNING NoteName.C (by decide)

end LapSteel
